import Mathlib

/-!
Shallow embedding of the portfolio ledger & trade execution engine of the
`hedge-fund` Go repository (package `internal/portfolio`), together with
proofs of the specification claims about it.

Modelling conventions:
* Go `float64` money/price arithmetic is embedded as exact `ℚ` arithmetic.
* Go `int64` quantities are embedded as `Int`.
* Go maps `map[string]float64` are embedded as association lists with
  first-match lookup (`lookupPrice`) and insert-or-replace (`mapInsert`).
* `time.Time` stamps carry no ledger information; the only observable fact
  used by the code is whether `Trade.ExecutedAt` is set, embedded as
  `Option Unit`.
* Functions that mutate their arguments through pointers are embedded as
  functions returning the updated values (`ExecResult`).
-/

deriving instance DecidableEq for Except

namespace HedgeFund

/-- Embedding of `models.Position` (pkg/shared/models/portfolio.go).
Timestamp fields are omitted; they carry no ledger information. -/
structure Position where
  id : Int := 0
  portfolioID : Int := 0
  userID : Int := 0
  symbol : String
  quantity : Int
  side : String := "long"
  entryPrice : ℚ
  currentPrice : ℚ := 0
  unrealizedPnL : ℚ := 0
  realizedPnL : ℚ := 0
  deriving DecidableEq, Repr

/-- Embedding of `models.Trade` (pkg/shared/models/portfolio.go).
`executedAt : Option Unit` records only whether the `*time.Time` pointer
was set. -/
structure Trade where
  id : Int := 0
  portfolioID : Int := 0
  positionID : Int := 0
  userID : Int := 0
  symbol : String
  quantity : Int
  price : ℚ := 0
  side : String
  type : String := "market"
  status : String := "pending"
  fees : ℚ := 0
  executedAt : Option Unit := none
  deriving DecidableEq, Repr

/-- Embedding of `models.Portfolio` restricted to the fields read or written
by the rule engine (`Cash`, `Positions`); the cached analytics fields and
timestamps are not consulted by the claims. -/
structure Portfolio where
  cash : ℚ
  positions : List Position
  deriving DecidableEq, Repr

/-- Symbol → current price mapping (`map[string]float64`), embedded as an
association list. -/
abbrev Prices := List (String × ℚ)

/-- First-match lookup in a price mapping (Go map indexing with the
`, exists` form). -/
def lookupPrice : Prices → String → Option ℚ
  | [], _ => none
  | (k, v) :: rest, s => if k = s then some v else lookupPrice rest s

/-- Error taxonomy of the rule engine: one constructor per distinct
`fmt.Errorf` site in `ValidateTradeOrder` / `ExecuteTradeOrder`
(internal/portfolio/domain/portfolio.go). -/
inductive TradeError where
  | invalidQuantity
  | invalidPrice
  | insufficientFunds
  | insufficientShares
  | invalidSide
  | positionNotFound
  deriving DecidableEq, Repr

/-- `calculateCommission` (domain/portfolio.go): `tradeValue * 0.001`,
floored at `1.0`. -/
def calculateCommission (tradeValue : ℚ) : ℚ :=
  let commission := tradeValue * (1 / 1000)
  if commission < 1 then 1 else commission

/-- `findPosition` (domain/portfolio.go): first position matching the
symbol, if any. -/
def findPosition : List Position → String → Option Position
  | [], _ => none
  | p :: rest, symbol => if p.symbol = symbol then some p else findPosition rest symbol

/-- `findPositionByIndex` (domain/portfolio.go) fused with the array
indexing `portfolio.Positions[i]` that always follows it in
`ExecuteTradeOrder`: returns the index of the first position matching the
symbol together with that position (`-1` in Go becomes `none`). -/
def findPositionIdx : List Position → String → Option (Nat × Position)
  | [], _ => none
  | p :: rest, symbol =>
    if p.symbol = symbol then some (0, p)
    else (findPositionIdx rest symbol).map (fun q => (q.1 + 1, q.2))

/-- `ValidateTradeOrder` (domain/portfolio.go lines 66–99), with the
`fmt.Errorf` messages abstracted into `TradeError` constructors. -/
def validateTradeOrder (trade : Trade) (portfolio : Portfolio) (currentPrice : ℚ) :
    Except TradeError Unit :=
  if trade.quantity ≤ 0 then .error .invalidQuantity
  else if currentPrice ≤ 0 then .error .invalidPrice
  else if trade.side = "buy" then
    let orderValue := (trade.quantity : ℚ) * currentPrice
    let fees := calculateCommission orderValue
    let totalCost := orderValue + fees
    if portfolio.cash < totalCost then .error .insufficientFunds else .ok ()
  else if trade.side = "sell" then
    match findPosition portfolio.positions trade.symbol with
    | none => .error .insufficientShares
    | some position =>
      if position.quantity < trade.quantity then .error .insufficientShares else .ok ()
  else .error .invalidSide

/-- Result of `ExecuteTradeOrder`: the mutated trade, the mutated
portfolio, and the returned `(*models.Position, error)` pair. -/
structure ExecResult where
  trade : Trade
  portfolio : Portfolio
  ret : Except TradeError (Option Position)
  deriving DecidableEq, Repr

/-- `ExecuteTradeOrder` (domain/portfolio.go lines 102–168). The trade is
stamped (price, fees, status, executedAt) before the side branch, exactly
as in the source; portfolio mutations are returned in the result. -/
def executeTradeOrder (trade : Trade) (portfolio : Portfolio) (currentPrice : ℚ) :
    ExecResult :=
  let trade' := { trade with
    price := currentPrice
    fees := calculateCommission ((trade.quantity : ℚ) * currentPrice)
    status := "filled"
    executedAt := some () }
  let tradeValue := (trade.quantity : ℚ) * currentPrice
  let found := findPositionIdx portfolio.positions trade.symbol
  if trade.side = "buy" then
    let cash' := portfolio.cash - (tradeValue + trade'.fees)
    match found with
    | none =>
      let newPosition : Position :=
        { userID := trade.userID
          symbol := trade.symbol
          quantity := trade.quantity
          side := "long"
          entryPrice := currentPrice
          currentPrice := currentPrice
          unrealizedPnL := 0 }
      { trade := trade'
        portfolio := { cash := cash', positions := portfolio.positions ++ [newPosition] }
        ret := .ok (some newPosition) }
    | some (i, pos) =>
      let totalCost := pos.entryPrice * (pos.quantity : ℚ) + tradeValue
      let totalQuantity := pos.quantity + trade.quantity
      let entryPrice' := totalCost / (totalQuantity : ℚ)
      let pos' := { pos with
        entryPrice := entryPrice'
        quantity := totalQuantity
        currentPrice := currentPrice
        unrealizedPnL := (currentPrice - entryPrice') * (totalQuantity : ℚ) }
      { trade := trade'
        portfolio := { cash := cash', positions := portfolio.positions.set i pos' }
        ret := .ok (some pos') }
  else
    match found with
    | none =>
      { trade := trade', portfolio := portfolio, ret := .error .positionNotFound }
    | some (i, pos) =>
      let cash' := portfolio.cash + (tradeValue - trade'.fees)
      let quantity' := pos.quantity - trade.quantity
      if quantity' = 0 then
        { trade := trade'
          portfolio := { cash := cash', positions := portfolio.positions.eraseIdx i }
          ret := .ok none }
      else
        let pos' := { pos with
          quantity := quantity'
          currentPrice := currentPrice
          unrealizedPnL := (currentPrice - pos.entryPrice) * (quantity' : ℚ) }
        { trade := trade'
          portfolio := { cash := cash', positions := portfolio.positions.set i pos' }
          ret := .ok (some pos') }

/-- Loop body of `CalculatePortfolioValue`: add the value of a position
whose symbol has a known price. -/
def valueStep (currentPrices : Prices) (totalValue : ℚ) (position : Position) : ℚ :=
  match lookupPrice currentPrices position.symbol with
  | some currentPrice => totalValue + (position.quantity : ℚ) * currentPrice
  | none => totalValue

/-- `CalculatePortfolioValue` (domain/portfolio.go lines 17–27): cash plus
the value of every position whose symbol has a known price. -/
def calculatePortfolioValue (portfolio : Portfolio) (currentPrices : Prices) : ℚ :=
  portfolio.positions.foldl (valueStep currentPrices) portfolio.cash

/-- Insert-or-replace into an association list: the embedding of a Go map
assignment `m[k] = v`. -/
def mapInsert : List (String × ℚ) → String → ℚ → List (String × ℚ)
  | [], k, v => [(k, v)]
  | (k', v') :: rest, k, v =>
    if k' = k then (k, v) :: rest else (k', v') :: mapInsert rest k v

/-- Loop body of `CalculatePortfolioAllocation`: record the percentage of a
priced position when total value is positive. -/
def allocStep (currentPrices : Prices) (totalValue : ℚ)
    (allocations : List (String × ℚ)) (position : Position) : List (String × ℚ) :=
  match lookupPrice currentPrices position.symbol with
  | some currentPrice =>
    let positionValue := (position.quantity : ℚ) * currentPrice
    if 0 < totalValue then
      mapInsert allocations position.symbol (positionValue / totalValue * 100)
    else allocations
  | none => allocations

/-- `CalculatePortfolioAllocation` (domain/portfolio.go lines 171–191):
a synthetic "CASH" entry plus one entry per priced position, each a
percentage of total value; nothing is emitted when total value is not
positive. -/
def calculatePortfolioAllocation (portfolio : Portfolio) (currentPrices : Prices) :
    List (String × ℚ) :=
  let totalValue := calculatePortfolioValue portfolio currentPrices
  let allocations : List (String × ℚ) :=
    if 0 < totalValue then mapInsert [] "CASH" (portfolio.cash / totalValue * 100) else []
  portfolio.positions.foldl (allocStep currentPrices totalValue) allocations

/-- Sum of the percentage values of an allocation map. -/
def allocSum (allocations : List (String × ℚ)) : ℚ :=
  (allocations.map Prod.snd).sum

/-- The Herfindahl summation loop inside `calculateDiversificationScore`
(domain/portfolio.go lines 353–370): sum of squared weights of priced
positions. -/
def herfSum (positions : List Position) (totalValue : ℚ) (currentPrices : Prices) : ℚ :=
  match positions with
  | [] => 0
  | position :: rest =>
    (match lookupPrice currentPrices position.symbol with
     | some currentPrice =>
       let weight := (position.quantity : ℚ) * currentPrice / totalValue
       weight * weight
     | none => 0) + herfSum rest totalValue currentPrices

/-- `calculateDiversificationScore` (domain/portfolio.go lines 353–370). -/
def calculateDiversificationScore (positions : List Position) (totalValue : ℚ)
    (currentPrices : Prices) : ℚ :=
  if positions.length ≤ 1 then 0
  else (1 - herfSum positions totalValue currentPrices) * 100

/-- The maximum-single-position loop of `CalculateRiskMetrics`
(domain/portfolio.go lines 257–285). -/
def maxPositionPercent (positions : List Position) (totalValue : ℚ)
    (currentPrices : Prices) : ℚ :=
  positions.foldl
    (fun maxPercent position =>
      match lookupPrice currentPrices position.symbol with
      | some currentPrice =>
        let positionPercent := (position.quantity : ℚ) * currentPrice / totalValue * 100
        if maxPercent < positionPercent then positionPercent else maxPercent
      | none => maxPercent)
    0

/-- The `map[string]interface{}` produced by `CalculateRiskMetrics`,
embedded as a record with one field per (distinct, constant) key. -/
structure RiskMetrics where
  totalValue : ℚ
  positionCount : Nat
  maxPositionPercent : ℚ
  cashPercent : ℚ
  diversificationScore : ℚ
  deriving DecidableEq, Repr

/-- `CalculateRiskMetrics` (domain/portfolio.go lines 257–285). -/
def calculateRiskMetrics (portfolio : Portfolio) (currentPrices : Prices) : RiskMetrics :=
  let totalValue := calculatePortfolioValue portfolio currentPrices
  { totalValue := totalValue
    positionCount := portfolio.positions.length
    maxPositionPercent := maxPositionPercent portfolio.positions totalValue currentPrices
    cashPercent := portfolio.cash / totalValue * 100
    diversificationScore :=
      calculateDiversificationScore portfolio.positions totalValue currentPrices }

/-! ## Spec-side definitions

These definitions follow the wording of the specification / claims, to be
compared with the source-derived definitions above. -/

/-- Spec-side validation chain, following the claim's wording: quantity,
price, buy-funds (with fee written as `max(1.00, 0.001 × quantity ×
price)`), sell-shares, side — checked in this order. -/
def validateSpec (trade : Trade) (portfolio : Portfolio) (currentPrice : ℚ) :
    Except TradeError Unit :=
  if trade.quantity ≤ 0 then .error .invalidQuantity
  else if currentPrice ≤ 0 then .error .invalidPrice
  else if trade.side = "buy" then
    if portfolio.cash <
        (trade.quantity : ℚ) * currentPrice
          + max 1 ((1 / 1000) * ((trade.quantity : ℚ) * currentPrice)) then
      .error .insufficientFunds
    else .ok ()
  else if trade.side = "sell" then
    match findPosition portfolio.positions trade.symbol with
    | none => .error .insufficientShares
    | some position =>
      if position.quantity < trade.quantity then .error .insufficientShares else .ok ()
  else .error .invalidSide

/-- Spec-side Herfindahl index, following the claim's wording: the sum of
squared position weights, each weight being the position's value divided by
the total portfolio value (a position with no known price has value 0). -/
def herfindahlIndex (portfolio : Portfolio) (currentPrices : Prices) : ℚ :=
  (portfolio.positions.map
    (fun position =>
      let weight :=
        (position.quantity : ℚ) * ((lookupPrice currentPrices position.symbol).getD 0)
          / calculatePortfolioValue portfolio currentPrices
      weight * weight)).sum

/-! ## Orchestration service and persistence gateway

The transactional `ExecuteTrade` of
`internal/portfolio/service/portfolio_service.go` drives repository
operations (`BeginTx`, `CreatePositionTx`, `UpdatePositionTx`,
`DeletePositionTx`, `CreateTradeTx`, `UpdatePortfolioTx`, `Commit`) whose
bodies live in the repository layer and the database driver. The store and
the transactional write operations below are modelled from the spec
(§4.2): a transaction is a caller-scoped unit of work whose writes become
visible all-or-nothing at commit; until then reads observe the committed
store, and an abandoned transaction (rollback) leaves the store unchanged.
Every repository call can fail; the oracle `fail` says which call sites
fail, indexed by their static position in `ExecuteTrade`. -/

/-- The durable rows touched by one `ExecuteTrade` call: the portfolio row
(its cash), the position rows, and the trade ledger rows. -/
structure Store where
  portfolioCash : ℚ
  positions : List Position
  trades : List Trade
  deriving DecidableEq, Repr

/-- `GetPositionByUserAndSymbol`
(internal/portfolio/repository/portfolio_repository.go lines 357–389):
the committed row selected by `WHERE user_id = $1 AND symbol = $2`;
`sql.ErrNoRows` is mapped to a nil position, so absence is a valid result
(`none`), not an error. -/
def getPositionRow (store : Store) (userID : Int) (symbol : String) : Option Position :=
  store.positions.find? (fun row => row.userID == userID && row.symbol == symbol)

/-- Modelled from the spec: `UpdatePositionTx` writes the row whose
identifier matches the updated position. -/
def updatePositionRow (rows : List Position) (position : Position) : List Position :=
  rows.map (fun row => if row.id = position.id then position else row)

/-- Modelled from the spec: `DeletePositionTx` removes the row with the
given identifier. -/
def deletePositionRow (rows : List Position) (id : Int) : List Position :=
  rows.filter (fun row => row.id != id)

/-- Errors surfaced by the orchestration service's `ExecuteTrade`. -/
inductive ServiceError where
  | portfolioNotFound
  | validationFailed (e : TradeError)
  | executionFailed (e : TradeError)
  | persistenceFailure
  deriving DecidableEq, Repr

/-- Tail of the transactional unit of work in `ExecuteTrade`: insert the
Trade row, update the Portfolio row, commit. Failure at any step abandons
the pending writes (`defer tx.Rollback()`), leaving the committed store
untouched. Call-site indices: 4 = `CreateTradeTx`, 5 = `UpdatePortfolioTx`,
6 = `Commit`. -/
def finishTx (fail : Nat → Bool) (store pending : Store) (trade : Trade)
    (portfolio : Portfolio) (retPos : Option Position) :
    Store × Except ServiceError (Option Position) :=
  if fail 4 then (store, .error .persistenceFailure)
  else
    let pending := { pending with trades := pending.trades ++ [trade] }
    if fail 5 then (store, .error .persistenceFailure)
    else
      let pending := { pending with portfolioCash := portfolio.cash }
      if fail 6 then (store, .error .persistenceFailure)
      else (pending, .ok retPos)

/-- The transactional `ExecuteTrade`
(internal/portfolio/service/portfolio_service.go): load the portfolio,
validate, run the domain execution in memory, then persist position, trade,
and portfolio inside one transaction. Call-site indices of the failure
oracle: 0 = `GetPortfolioByID`, 1 = `BeginTx`, 2 =
`GetPositionByUserAndSymbol`, 3 = the position write
(`CreatePositionTx`/`UpdatePositionTx`/`DeletePositionTx`), 4–6 as in
`finishTx`. -/
def serviceExecuteTrade (fail : Nat → Bool) (store : Store) (portfolioID : Int)
    (trade : Trade) (currentPrice : ℚ) : Store × Except ServiceError (Option Position) :=
  if fail 0 then (store, .error .portfolioNotFound)
  else
    let portfolio : Portfolio := { cash := store.portfolioCash, positions := store.positions }
    match validateTradeOrder trade portfolio currentPrice with
    | .error e => (store, .error (.validationFailed e))
    | .ok _ =>
      let r := executeTradeOrder trade portfolio currentPrice
      match r.ret with
      | .error e => (store, .error (.executionFailed e))
      | .ok positionOpt =>
        let trade := { r.trade with portfolioID := portfolioID }
        if fail 1 then (store, .error .persistenceFailure)
        else
          let pending := store
          match positionOpt with
          | some position =>
            if fail 2 then (store, .error .persistenceFailure)
            else
              let position := { position with portfolioID := portfolioID }
              match getPositionRow store trade.userID trade.symbol with
              | none =>
                if fail 3 then (store, .error .persistenceFailure)
                else
                  let pending := { pending with positions := pending.positions ++ [position] }
                  let trade := { trade with positionID := position.id }
                  finishTx fail store pending trade r.portfolio (some position)
              | some existing =>
                if fail 3 then (store, .error .persistenceFailure)
                else
                  let position := { position with id := existing.id }
                  let pending :=
                    { pending with positions := updatePositionRow pending.positions position }
                  let trade := { trade with positionID := position.id }
                  finishTx fail store pending trade r.portfolio (some position)
          | none =>
            if fail 2 then (store, .error .persistenceFailure)
            else
              match getPositionRow store trade.userID trade.symbol with
              | some existing =>
                if fail 3 then (store, .error .persistenceFailure)
                else
                  let trade := { trade with positionID := existing.id }
                  let pending :=
                    { pending with positions := deletePositionRow pending.positions existing.id }
                  finishTx fail store pending trade r.portfolio none
              | none => finishTx fail store pending trade r.portfolio none

/-! ## Sample inputs used by witnesses and counterexamples -/

/-- A portfolio holding one small position and no cash. -/
def dustPortfolio : Portfolio :=
  { cash := 0, positions := [{ symbol := "AAPL", quantity := 1, entryPrice := 1 }] }

/-- A sell order for that small position. -/
def dustSell : Trade := { symbol := "AAPL", quantity := 1, side := "sell" }

/-- A funded portfolio with an existing AAPL position. -/
def fundedPortfolio : Portfolio :=
  { cash := 10000, positions := [{ symbol := "AAPL", quantity := 10, entryPrice := 150 }] }

/-- A buy order for 10 more AAPL shares. -/
def buyTen : Trade := { symbol := "AAPL", quantity := 10, side := "buy" }

/-- A sell order closing the whole AAPL position. -/
def sellAllTen : Trade := { symbol := "AAPL", quantity := 10, side := "sell" }

/-- A portfolio with cash only. -/
def cashOnlyPortfolio : Portfolio := { cash := 50, positions := [] }

/-- A portfolio with cash and one position, for the allocation witness. -/
def allocPortfolio : Portfolio :=
  { cash := 50, positions := [{ symbol := "AAPL", quantity := 1, entryPrice := 10 }] }

/-- A committed store matching `fundedPortfolio`. -/
def fundedStore : Store :=
  { portfolioCash := 10000
    positions := [{ id := 7, userID := 1, symbol := "AAPL", quantity := 10, entryPrice := 150 }]
    trades := [] }

/-- A buy order from user 1, used against `fundedStore`. -/
def buyTenUser1 : Trade := { userID := 1, symbol := "AAPL", quantity := 10, side := "buy" }

/-- Failure oracle that fails exactly the `CreateTradeTx` call site (index
4), i.e. the Trade insert that follows the Position write. -/
def failAtTradeInsert : Nat → Bool := fun n => n == 4

/-! ## Helper lemmas -/

lemma calculateCommission_eq_max (v : ℚ) :
    calculateCommission v = max 1 ((1 / 1000) * v) := by
  simp only [calculateCommission]
  rw [mul_comm v (1 / 1000 : ℚ)]
  rcases le_total ((1 / 1000 : ℚ) * v) 1 with h | h
  · rw [max_eq_left h]
    split_ifs with h'
    · rfl
    · linarith
  · rw [max_eq_right h]
    split_ifs with h'
    · linarith
    · rfl

lemma findPosition_eq_idx (positions : List Position) (symbol : String) :
    findPosition positions symbol = (findPositionIdx positions symbol).map Prod.snd := by
  induction positions with
  | nil => rfl
  | cons p rest ih =>
    unfold findPosition findPositionIdx
    split_ifs with h
    · rfl
    · rw [ih, Option.map_map]
      rfl

lemma validateTradeOrder_pos {t : Trade} {p : Portfolio} {price : ℚ}
    (hv : validateTradeOrder t p price = .ok ()) : 0 < t.quantity ∧ 0 < price := by
  simp only [validateTradeOrder] at hv
  split_ifs at hv with h1 h2 <;>
    first
      | exact (Except.noConfusion hv)
      | exact ⟨by omega, by linarith⟩

lemma validateTradeOrder_buy_funds {t : Trade} {p : Portfolio} {price : ℚ}
    (hside : t.side = "buy") (hv : validateTradeOrder t p price = .ok ()) :
    (t.quantity : ℚ) * price + calculateCommission ((t.quantity : ℚ) * price) ≤ p.cash := by
  simp only [validateTradeOrder] at hv
  rw [hside] at hv
  split_ifs at hv with h1 h2 h3 <;>
    first
      | exact (Except.noConfusion hv)
      | exact absurd rfl h3
      | linarith

lemma validateTradeOrder_sell_shares {t : Trade} {p : Portfolio} {price : ℚ}
    (hside : t.side = "sell") (hv : validateTradeOrder t p price = .ok ()) :
    ∃ i pos, findPositionIdx p.positions t.symbol = some (i, pos)
      ∧ t.quantity ≤ pos.quantity := by
  simp only [validateTradeOrder] at hv
  split_ifs at hv with h1 h2 h3
  · exact absurd (hside ▸ h3) (by decide)
  rcases hfp : findPosition p.positions t.symbol with _ | pos
  · rw [hfp] at hv
    dsimp only at hv
    exact (Except.noConfusion hv)
  · rw [hfp] at hv
    dsimp only at hv
    split_ifs at hv with hq
    have hmap := findPosition_eq_idx p.positions t.symbol
    rw [hfp] at hmap
    rcases hidx : findPositionIdx p.positions t.symbol with _ | q
    · rw [hidx] at hmap
      exact (Option.noConfusion hmap)
    · rw [hidx] at hmap
      refine ⟨q.1, q.2, by simp [hidx], ?_⟩
      have hpq : pos = q.2 := by
        simpa using hmap
      rw [← hpq]
      exact not_lt.mp hq

lemma mapInsert_fresh {m : List (String × ℚ)} {k : String} (v : ℚ)
    (hk : k ∉ m.map Prod.fst) : mapInsert m k v = m ++ [(k, v)] := by
  induction m with
  | nil => rfl
  | cons kv rest ih =>
    obtain ⟨k', v'⟩ := kv
    simp only [List.map_cons, List.mem_cons] at hk
    push_neg at hk
    simp only [mapInsert, if_neg (Ne.symm hk.1), List.cons_append, List.cons.injEq, true_and]
    exact ih hk.2

lemma allocSum_append (m : List (String × ℚ)) (k : String) (v : ℚ) :
    allocSum (m ++ [(k, v)]) = allocSum m + v := by
  simp [allocSum]

lemma foldl_valueStep (prices : Prices) (l : List Position) (a : ℚ) :
    l.foldl (valueStep prices) a
      = a + (l.map
          (fun pos => (pos.quantity : ℚ) * ((lookupPrice prices pos.symbol).getD 0))).sum := by
  induction l generalizing a with
  | nil => simp
  | cons pos rest ih =>
    simp only [List.foldl_cons, List.map_cons, List.sum_cons]
    rw [ih]
    cases hcp : lookupPrice prices pos.symbol with
    | none => simp [valueStep, hcp]
    | some cp =>
      simp [valueStep, hcp]
      ring

lemma foldl_allocStep (prices : Prices) (T : ℚ) (hT : 0 < T) (l : List Position)
    (m : List (String × ℚ)) (hnodup : (l.map Position.symbol).Nodup)
    (hfresh : ∀ pos ∈ l, pos.symbol ∉ m.map Prod.fst) :
    allocSum (l.foldl (allocStep prices T) m)
      = allocSum m
        + (l.map
            (fun pos => (pos.quantity : ℚ) * ((lookupPrice prices pos.symbol).getD 0))).sum
          * (100 / T) := by
  induction l generalizing m with
  | nil => simp
  | cons pos rest ih =>
    simp only [List.map_cons, List.nodup_cons, List.mem_cons] at hnodup hfresh ⊢
    simp only [List.foldl_cons, List.sum_cons]
    cases hcp : lookupPrice prices pos.symbol with
    | none =>
      have hstep : allocStep prices T m pos = m := by
        simp [allocStep, hcp]
      rw [hstep, ih m hnodup.2 (fun q hq => hfresh q (Or.inr hq))]
      simp
    | some cp =>
      have hstep : allocStep prices T m pos
          = m ++ [(pos.symbol, (pos.quantity : ℚ) * cp / T * 100)] := by
        simp only [allocStep, hcp, if_pos hT]
        exact mapInsert_fresh _ (hfresh pos (Or.inl rfl))
      rw [hstep, ih (m ++ [(pos.symbol, (pos.quantity : ℚ) * cp / T * 100)]) hnodup.2 ?fresh,
        allocSum_append]
      · simp only [Option.getD_some]
        ring
      case fresh =>
        intro q hq
        simp only [List.map_append, List.mem_append, List.map_cons, List.map_nil,
          List.mem_singleton, not_or]
        refine ⟨fun hmem => hfresh q (Or.inr hq) hmem, ?_⟩
        intro hsym
        exact hnodup.1 (hsym ▸ List.mem_map_of_mem Position.symbol hq)

lemma herfSum_eq (prices : Prices) (T : ℚ) (l : List Position) :
    herfSum l T prices
      = (l.map (fun pos =>
          let weight := (pos.quantity : ℚ) * ((lookupPrice prices pos.symbol).getD 0) / T
          weight * weight)).sum := by
  induction l with
  | nil => simp [herfSum]
  | cons pos rest ih =>
    simp only [herfSum, List.map_cons, List.sum_cons, ih]
    cases hcp : lookupPrice prices pos.symbol <;> simp [hcp]

lemma executeTradeOrder_buy_cash {t : Trade} {p : Portfolio} {price : ℚ}
    (hside : t.side = "buy") :
    (executeTradeOrder t p price).portfolio.cash
      = p.cash - ((t.quantity : ℚ) * price + calculateCommission ((t.quantity : ℚ) * price)) := by
  rcases hidx : findPositionIdx p.positions t.symbol with _ | ⟨i, pos⟩ <;>
    simp [executeTradeOrder, hside, hidx]

lemma executeTradeOrder_sell_cash {t : Trade} {p : Portfolio} (price : ℚ) {i : Nat}
    {pos : Position} (hbuy : ¬t.side = "buy")
    (hidx : findPositionIdx p.positions t.symbol = some (i, pos)) :
    (executeTradeOrder t p price).portfolio.cash
      = p.cash + ((t.quantity : ℚ) * price - calculateCommission ((t.quantity : ℚ) * price)) := by
  simp only [executeTradeOrder, hidx]
  rw [if_neg hbuy]
  split_ifs <;> rfl

/-! ## Claim theorems -/

/-- C5: `ValidateTradeOrder` errors exactly under the claim's conditions,
checked in the claim's order (invalid quantity, invalid price, insufficient
funds for a buy with fee `max(1.00, 0.001·qty·price)`, insufficient shares
for a sell with a missing or too-small position, invalid side), and
succeeds otherwise: it coincides with the spec-side validation chain. -/
theorem validateTradeOrder_eq_validateSpec (t : Trade) (p : Portfolio) (price : ℚ) :
    validateTradeOrder t p price = validateSpec t p price := by
  simp only [validateTradeOrder, validateSpec, calculateCommission_eq_max]

/-- C6: the commission stamped on every executed order (buy or sell) is
`max(1.00, 0.001 × quantity × execution price)`. -/
theorem executeTradeOrder_fees_eq_max (t : Trade) (p : Portfolio) (price : ℚ) :
    (executeTradeOrder t p price).trade.fees
      = max 1 ((1 / 1000) * ((t.quantity : ℚ) * price)) := by
  simp only [executeTradeOrder, calculateCommission_eq_max]
  repeat' split
  all_goals rfl

/-- C10: `ExecuteTradeOrder` stamps the trade's price, fees, status and
execution timestamp before branching on the side, so the stamps are present
for every input — in particular also on the error return of a sell with no
matching position. -/
theorem executeTradeOrder_stamps_trade (t : Trade) (p : Portfolio) (price : ℚ) :
    (executeTradeOrder t p price).trade.price = price
      ∧ (executeTradeOrder t p price).trade.fees
          = calculateCommission ((t.quantity : ℚ) * price)
      ∧ (executeTradeOrder t p price).trade.status = "filled"
      ∧ (executeTradeOrder t p price).trade.executedAt = some () := by
  refine ⟨?_, ?_, ?_, ?_⟩ <;>
    · simp only [executeTradeOrder]
      repeat' split
      all_goals rfl

/-- C9: a sell whose symbol has no position in the portfolio makes
`ExecuteTradeOrder` return an error and leaves cash and the position set
untouched. -/
theorem executeTradeOrder_sell_missing_frame (t : Trade) (p : Portfolio) (price : ℚ)
    (hside : t.side = "sell") (hmiss : findPosition p.positions t.symbol = none) :
    (executeTradeOrder t p price).ret = .error .positionNotFound
      ∧ (executeTradeOrder t p price).portfolio.cash = p.cash
      ∧ (executeTradeOrder t p price).portfolio.positions = p.positions := by
  have hidx : findPositionIdx p.positions t.symbol = none := by
    have h := findPosition_eq_idx p.positions t.symbol
    rw [hmiss] at h
    exact Option.map_eq_none'.mp h.symm
  have hbuy : ¬(t.side = "buy") := by
    rw [hside]
    decide
  simp only [executeTradeOrder, hidx]
  rw [if_neg hbuy]
  exact ⟨rfl, rfl, rfl⟩

/-- C1 counterexample: a portfolio with non-negative cash (zero) and a
one-share position; selling that share at price 1/2 passes validation, yet
execution leaves cash at −1/2, because the minimum fee of 1.00 exceeds the
sale proceeds. This refutes the claim that cash is never negative after a
validated execution. -/
theorem validate_execute_negative_cash_cex :
    0 ≤ dustPortfolio.cash
      ∧ validateTradeOrder dustSell dustPortfolio (1 / 2) = .ok ()
      ∧ (executeTradeOrder dustSell dustPortfolio (1 / 2)).portfolio.cash < 0 := by
  refine ⟨by norm_num [dustPortfolio], ?_, ?_⟩
  · norm_num +decide [validateTradeOrder, findPosition, dustSell, dustPortfolio]
  · norm_num +decide [executeTradeOrder, findPositionIdx, calculateCommission, dustSell,
      dustPortfolio]

/-- C1 (amended): for a portfolio with non-negative cash and an order that
passes validation on the same snapshot and price, a buy never drives cash
negative (validation required `cash ≥ quantity·price + fee`); a sell
changes cash by exactly `quantity·price − fee`, which keeps cash
non-negative whenever the sale proceeds cover the fee — but not in general,
as the minimum fee can exceed the proceeds of a very small sale. -/
theorem validate_execute_cash_bounds (t : Trade) (p : Portfolio) (price : ℚ)
    (hcash : 0 ≤ p.cash) (hv : validateTradeOrder t p price = .ok ()) :
    (t.side = "buy" → 0 ≤ (executeTradeOrder t p price).portfolio.cash)
      ∧ (t.side = "sell" →
          (executeTradeOrder t p price).portfolio.cash
              = p.cash + ((t.quantity : ℚ) * price
                  - calculateCommission ((t.quantity : ℚ) * price))
            ∧ (calculateCommission ((t.quantity : ℚ) * price) ≤ (t.quantity : ℚ) * price →
                0 ≤ (executeTradeOrder t p price).portfolio.cash)) := by
  constructor
  · intro hside
    have hf := validateTradeOrder_buy_funds hside hv
    rw [executeTradeOrder_buy_cash hside]
    linarith
  · intro hside
    have hbuy : ¬t.side = "buy" := by
      rw [hside]
      decide
    obtain ⟨i, pos, hidx, -⟩ := validateTradeOrder_sell_shares hside hv
    have hc := executeTradeOrder_sell_cash price hbuy hidx
    refine ⟨hc, ?_⟩
    intro hfee
    rw [hc]
    linarith

/-- Witness for C1 (amended) at a concrete input: buying 10 AAPL at 160
against a funded portfolio keeps cash non-negative, and the sell conjunct
holds vacuously-instantiated alongside. -/
theorem validate_execute_cash_bounds_witness :
    (buyTen.side = "buy" → 0 ≤ (executeTradeOrder buyTen fundedPortfolio 160).portfolio.cash)
      ∧ (buyTen.side = "sell" →
          (executeTradeOrder buyTen fundedPortfolio 160).portfolio.cash
              = fundedPortfolio.cash + ((buyTen.quantity : ℚ) * 160
                  - calculateCommission ((buyTen.quantity : ℚ) * 160))
            ∧ (calculateCommission ((buyTen.quantity : ℚ) * 160) ≤ (buyTen.quantity : ℚ) * 160 →
                0 ≤ (executeTradeOrder buyTen fundedPortfolio 160).portfolio.cash)) :=
  validate_execute_cash_bounds buyTen fundedPortfolio 160
    (by norm_num [fundedPortfolio])
    (by norm_num +decide [validateTradeOrder, calculateCommission, fundedPortfolio, buyTen])

/-- C2: whenever the orchestration service's transactional `ExecuteTrade`
returns an error — in particular when a persistence operation after the
first transactional write fails, such as the Trade insert failing after the
Position write — the committed store is exactly what it was before the
call: no partial Portfolio, Position, or Trade write is visible. -/
theorem executeTrade_rollback_on_error (fail : Nat → Bool) (store : Store)
    (portfolioID : Int) (trade : Trade) (currentPrice : ℚ) (e : ServiceError)
    (h : (serviceExecuteTrade fail store portfolioID trade currentPrice).2 = .error e) :
    (serviceExecuteTrade fail store portfolioID trade currentPrice).1 = store := by
  have hpair : ∀ (s : Store) (r : Except ServiceError (Option Position)),
      serviceExecuteTrade fail store portfolioID trade currentPrice = (s, r) →
      r = .error e → s = store := by
    intro s r hr herr
    simp only [serviceExecuteTrade, finishTx] at hr
    repeat' split at hr
    all_goals injection hr with h1 h2
    all_goals subst h1
    all_goals subst h2
    all_goals simp_all
  exact hpair _ _ rfl h

/-- Witness for C2 at a concrete input: with the failure oracle killing the
Trade insert (after the Position write succeeded inside the transaction),
`ExecuteTrade` surfaces a persistence failure and the store is unchanged. -/
theorem executeTrade_rollback_on_error_witness :
    (serviceExecuteTrade failAtTradeInsert fundedStore 1 buyTenUser1 160).2
        = .error .persistenceFailure
      ∧ (serviceExecuteTrade failAtTradeInsert fundedStore 1 buyTenUser1 160).1
          = fundedStore := by
  have herr : (serviceExecuteTrade failAtTradeInsert fundedStore 1 buyTenUser1 160).2
      = .error .persistenceFailure := by
    norm_num +decide [serviceExecuteTrade, finishTx, validateTradeOrder, executeTradeOrder,
      calculateCommission, findPositionIdx, findPosition, getPositionRow, updatePositionRow,
      fundedStore, buyTenUser1, failAtTradeInsert]
  exact ⟨herr, executeTrade_rollback_on_error failAtTradeInsert fundedStore 1 buyTenUser1 160
    .persistenceFailure herr⟩

/-- C3: a validated buy debits cash by exactly `quantity·price + fee`; on
an existing position the new entry price is the quantity-weighted average
of old and new cost, and on a fresh symbol the new position carries the
execution price and the bought quantity. -/
theorem executeTradeOrder_buy_spec (t : Trade) (p : Portfolio) (price : ℚ)
    (_hv : validateTradeOrder t p price = .ok ()) (hside : t.side = "buy") :
    (executeTradeOrder t p price).portfolio.cash
        = p.cash - ((t.quantity : ℚ) * price + max 1 ((1 / 1000) * ((t.quantity : ℚ) * price)))
      ∧ (∀ i pos, findPositionIdx p.positions t.symbol = some (i, pos) →
          ∃ pos', (executeTradeOrder t p price).ret = .ok (some pos')
            ∧ pos'.entryPrice
                = (pos.entryPrice * (pos.quantity : ℚ) + (t.quantity : ℚ) * price)
                    / ((pos.quantity : ℚ) + (t.quantity : ℚ))
            ∧ pos'.quantity = pos.quantity + t.quantity)
      ∧ (findPositionIdx p.positions t.symbol = none →
          ∃ pos', (executeTradeOrder t p price).ret = .ok (some pos')
            ∧ pos'.entryPrice = price ∧ pos'.quantity = t.quantity) := by
  refine ⟨?_, ?_, ?_⟩
  · rw [executeTradeOrder_buy_cash hside, calculateCommission_eq_max]
  · intro i pos hidx
    simp only [executeTradeOrder, hside, hidx]
    refine ⟨_, rfl, ?_, rfl⟩
    push_cast
    ring
  · intro hidx
    simp only [executeTradeOrder, hside, hidx]
    exact ⟨_, rfl, rfl, rfl⟩

/-- Witness for C3 at a concrete input: buying 10 more AAPL at 160 on top
of 10 held at 150 debits 1601.60 and yields entry price 155 on 20 shares. -/
theorem executeTradeOrder_buy_spec_witness :
    (executeTradeOrder buyTen fundedPortfolio 160).portfolio.cash
        = fundedPortfolio.cash
            - ((buyTen.quantity : ℚ) * 160 + max 1 ((1 / 1000) * ((buyTen.quantity : ℚ) * 160)))
      ∧ ∃ pos', (executeTradeOrder buyTen fundedPortfolio 160).ret = .ok (some pos')
          ∧ pos'.entryPrice = 155 ∧ pos'.quantity = 20 := by
  obtain ⟨hcash, hupd, -⟩ := executeTradeOrder_buy_spec buyTen fundedPortfolio 160
    (by norm_num +decide [validateTradeOrder, calculateCommission, fundedPortfolio, buyTen]) rfl
  obtain ⟨pos', hret, hep, hq⟩ :=
    hupd 0 { symbol := "AAPL", quantity := 10, entryPrice := 150 } rfl
  refine ⟨hcash, pos', hret, ?_, ?_⟩
  · rw [hep]
    norm_num [buyTen]
  · rw [hq]
    rfl

/-- C4: a validated sell credits cash by exactly `quantity·price − fee` and
decrements the position's quantity; a full close removes the position and
returns none, a partial close leaves the entry price unchanged. -/
theorem executeTradeOrder_sell_spec (t : Trade) (p : Portfolio) (price : ℚ)
    (hv : validateTradeOrder t p price = .ok ()) (hside : t.side = "sell") :
    (executeTradeOrder t p price).portfolio.cash
        = p.cash + ((t.quantity : ℚ) * price - max 1 ((1 / 1000) * ((t.quantity : ℚ) * price)))
      ∧ ∀ i pos, findPositionIdx p.positions t.symbol = some (i, pos) →
          ((pos.quantity = t.quantity →
              (executeTradeOrder t p price).ret = .ok none
                ∧ (executeTradeOrder t p price).portfolio.positions = p.positions.eraseIdx i)
            ∧ (pos.quantity ≠ t.quantity →
                ∃ pos', (executeTradeOrder t p price).ret = .ok (some pos')
                  ∧ pos'.entryPrice = pos.entryPrice
                  ∧ pos'.quantity = pos.quantity - t.quantity
                  ∧ (executeTradeOrder t p price).portfolio.positions
                      = p.positions.set i pos')) := by
  have hbuy : ¬t.side = "buy" := by
    rw [hside]
    decide
  obtain ⟨i0, pos0, hidx0, -⟩ := validateTradeOrder_sell_shares hside hv
  refine ⟨?_, ?_⟩
  · rw [executeTradeOrder_sell_cash price hbuy hidx0, calculateCommission_eq_max]
  · intro i pos hidx
    constructor
    · intro hq
      have hz : pos.quantity - t.quantity = 0 := by omega
      simp only [executeTradeOrder, hidx]
      rw [if_neg hbuy]
      simp only [hz]
      exact ⟨rfl, rfl⟩
    · intro hq
      have hz : ¬(pos.quantity - t.quantity = 0) := by omega
      simp only [executeTradeOrder, hidx]
      rw [if_neg hbuy]
      simp only [if_neg hz]
      exact ⟨_, rfl, rfl, rfl, rfl⟩

/-- Witness for C4 at a concrete input: selling all 10 AAPL at 155 credits
the proceeds net of fee, removes the position and returns none. -/
theorem executeTradeOrder_sell_spec_witness :
    (executeTradeOrder sellAllTen fundedPortfolio 155).portfolio.cash
        = fundedPortfolio.cash
            + ((sellAllTen.quantity : ℚ) * 155
                - max 1 ((1 / 1000) * ((sellAllTen.quantity : ℚ) * 155)))
      ∧ (executeTradeOrder sellAllTen fundedPortfolio 155).ret = .ok none
      ∧ (executeTradeOrder sellAllTen fundedPortfolio 155).portfolio.positions = [] := by
  obtain ⟨hcash, h⟩ := executeTradeOrder_sell_spec sellAllTen fundedPortfolio 155
    (by norm_num +decide [validateTradeOrder, findPosition, fundedPortfolio, sellAllTen]) rfl
  obtain ⟨hfull, -⟩ := h 0 { symbol := "AAPL", quantity := 10, entryPrice := 150 } rfl
  obtain ⟨hret, hpos⟩ := hfull rfl
  refine ⟨hcash, hret, ?_⟩
  rw [hpos]
  rfl

/-- C7 counterexample: in the degenerate portfolio with zero cash and no
positions (every position trivially priced), `CalculatePortfolioAllocation`
emits no entries at all, so the percentages sum to 0, not 100 ± 0.01: the
claim fails when total portfolio value is not positive. -/
theorem allocation_sum_not_100_cex :
    (∀ pos ∈ (Portfolio.mk 0 []).positions, (lookupPrice [] pos.symbol).isSome)
      ∧ ¬|allocSum (calculatePortfolioAllocation (Portfolio.mk 0 []) []) - 100| ≤ 1 / 100 := by
  constructor
  · intro pos h
    cases h
  · norm_num [calculatePortfolioAllocation, calculatePortfolioValue, allocSum]

/-- C7 (amended): whenever every position's symbol has a price, the
position symbols are pairwise distinct and none of them is the synthetic
key "CASH", and the total portfolio value is positive, the allocation
percentages (including the "CASH" entry) sum to exactly 100. -/
theorem allocation_sum_eq_100 (p : Portfolio) (prices : Prices)
    (_hpriced : ∀ pos ∈ p.positions, (lookupPrice prices pos.symbol).isSome)
    (hnodup : (p.positions.map Position.symbol).Nodup)
    (hcash : "CASH" ∉ p.positions.map Position.symbol)
    (hT : 0 < calculatePortfolioValue p prices) :
    allocSum (calculatePortfolioAllocation p prices) = 100 := by
  have hTval : calculatePortfolioValue p prices
      = p.cash + (p.positions.map
          (fun pos => (pos.quantity : ℚ) * ((lookupPrice prices pos.symbol).getD 0))).sum := by
    rw [calculatePortfolioValue, foldl_valueStep]
  have hfresh : ∀ pos ∈ p.positions,
      pos.symbol ∉ (mapInsert [] "CASH"
        (p.cash / calculatePortfolioValue p prices * 100)).map Prod.fst := by
    intro pos hpos
    simp only [mapInsert, List.map_cons, List.map_nil, List.mem_singleton]
    intro hsym
    exact hcash (hsym ▸ List.mem_map_of_mem Position.symbol hpos)
  simp only [calculatePortfolioAllocation, if_pos hT]
  rw [foldl_allocStep prices (calculatePortfolioValue p prices) hT p.positions _ hnodup hfresh]
  have hne : calculatePortfolioValue p prices ≠ 0 := ne_of_gt hT
  simp only [mapInsert, allocSum, List.map_cons, List.map_nil, List.sum_cons, List.sum_nil]
  field_simp
  linarith [hTval]

/-- Witness for C7 (amended) at a concrete input: 50 cash plus one AAPL
share priced at 50 allocates 50% to CASH and 50% to AAPL, summing to 100. -/
theorem allocation_sum_eq_100_witness :
    allocSum (calculatePortfolioAllocation allocPortfolio [("AAPL", 50)]) = 100 :=
  allocation_sum_eq_100 allocPortfolio [("AAPL", 50)]
    (by simp [allocPortfolio, lookupPrice])
    (by simp [allocPortfolio])
    (by simp [allocPortfolio])
    (by norm_num [allocPortfolio, calculatePortfolioValue, valueStep, lookupPrice])

/-- C8: the diversification score reported by the risk metrics is
`(1 − H) × 100` with `H` the Herfindahl index (the sum of squared position
weights, each weight the position's value over total portfolio value), and
a portfolio with zero or one positions scores exactly 0. -/
theorem riskMetrics_diversification_eq_herfindahl (p : Portfolio) (prices : Prices) :
    (calculateRiskMetrics p prices).diversificationScore
      = if p.positions.length ≤ 1 then 0
        else (1 - herfindahlIndex p prices) * 100 := by
  simp only [calculateRiskMetrics, calculateDiversificationScore, herfindahlIndex, herfSum_eq]

/-- Witness for C9 at a concrete input: selling AAPL against a cash-only
portfolio errors and changes nothing. -/
theorem executeTradeOrder_sell_missing_frame_witness :
    (executeTradeOrder dustSell cashOnlyPortfolio 10).ret = .error .positionNotFound
      ∧ (executeTradeOrder dustSell cashOnlyPortfolio 10).portfolio.cash = cashOnlyPortfolio.cash
      ∧ (executeTradeOrder dustSell cashOnlyPortfolio 10).portfolio.positions
          = cashOnlyPortfolio.positions :=
  executeTradeOrder_sell_missing_frame dustSell cashOnlyPortfolio 10 rfl rfl

end HedgeFund
